import Mathlib

/-!
Verification of the APS-program web application (`app.py`, `init_db.py`):
a shallow embedding of its data model and route handlers, with theorems
about upload ordering, chapter deletion, bookmarks, series creation,
reading, admin access, redirect validation, registration and filename
handling.

Strings from the source are modelled as Lean `String`s with character-level
helper functions; the source's Python string operations are modelled for
ASCII input (the source never relies on non-ASCII behaviour).
-/

set_option maxHeartbeats 1000000

namespace Aps

/-- Models Python's regex `\d` and `str.isdigit` on a single character,
for ASCII input: the decimal digits `'0'`-`'9'`. -/
def pyDigit (c : Char) : Bool := c.isDigit

/-- Models Python's `str.split()` whitespace set (ASCII): space, tab,
newline, carriage return, vertical tab, form feed. -/
def pySpace (c : Char) : Bool :=
  c = ' ' || c = '\t' || c = '\n' || c = '\r' || c = '\x0b' || c = '\x0c'

/-- Numeric value of a run of decimal digits, as computed by Python's
`int(part)` on an all-digit string (leading zeros allowed). -/
def digitsToNat (l : List Char) : Nat :=
  l.foldl (fun a c => 10 * a + (c.toNat - '0'.toNat)) 0

/-- Models Python's `str.isdigit()` (ASCII): nonempty and all digits. -/
def pyIsdigitStr (l : List Char) : Bool := !l.isEmpty && l.all pyDigit

/-- Lexicographic comparison of two character lists by code point,
modelling Python string comparison. -/
def lexCompare : List Char → List Char → Ordering
  | [], [] => Ordering.eq
  | [], _ :: _ => Ordering.lt
  | _ :: _, [] => Ordering.gt
  | a :: as, b :: bs =>
    if a < b then Ordering.lt
    else if b < a then Ordering.gt
    else lexCompare as bs

/-- One element of a natural-sort key: Python's
`int(part) if part.isdigit() else part` yields either a string or an int. -/
inductive SortPart where
  | str (s : List Char)
  | num (n : Nat)
deriving DecidableEq

/-- Models `re.split(r"(\d+)", s)`: splits `s` at maximal digit runs and
keeps the captured runs, producing an alternating list
`[text, digits, text, ..., digits, text]` whose even positions are
(possibly empty) digit-free runs and odd positions nonempty digit runs. -/
def sdrGo : List Char → List (List Char)
  | [] => [[]]
  | [c] => if pyDigit c then [[], [c], []] else [[c]]
  | c :: c2 :: cs =>
    if pyDigit c then
      if pyDigit c2 then
        match sdrGo (c2 :: cs) with
        | [] :: d :: rest => [] :: (c :: d) :: rest
        | r => [] :: [c] :: r
      else [] :: [c] :: sdrGo (c2 :: cs)
    else
      match sdrGo (c2 :: cs) with
      | t :: rest => (c :: t) :: rest
      | [] => [[c]]

/-- Models `app.py` `_natural_sort_key`: lower-case the value, normalize
backslashes to `/`, split into alternating non-digit/digit runs, and
convert digit runs to their numeric value. -/
def natural_sort_key (value : String) : List SortPart :=
  let normalized := (value.toList.map (fun c => if c = '\\' then '/' else c)).map Char.toLower
  (sdrGo normalized).map
    (fun part => if pyIsdigitStr part then SortPart.num (digitsToNat part) else SortPart.str part)

/-- Comparison of two key elements as Python performs it: strings compare
lexicographically, ints numerically, and an int against a string raises
`TypeError` (modelled as `none`). -/
def partCmp : SortPart → SortPart → Option Ordering
  | SortPart.str a, SortPart.str b => some (lexCompare a b)
  | SortPart.num a, SortPart.num b => some (compare a b)
  | _, _ => none

/-- Python list comparison of two sort keys: element-wise, first
non-equal position decides, a strict prefix is smaller; `none` models a
`TypeError` when an int meets a string. -/
def keyCmp : List SortPart → List SortPart → Option Ordering
  | [], [] => some Ordering.eq
  | [], _ :: _ => some Ordering.lt
  | _ :: _, [] => some Ordering.gt
  | a :: as, b :: bs =>
    match partCmp a b with
    | none => none
    | some Ordering.eq => keyCmp as bs
    | some o => some o

/-- Boolean strict "key less than", as used by Python's ascending sort. -/
def keyLtB (a b : List SortPart) : Bool := keyCmp a b == some Ordering.lt

/-- A run without digit characters (an even position of the split). -/
def TextRun (t : List Char) : Prop := ∀ c ∈ t, pyDigit c = false

/-- A nonempty run of digit characters (an odd position of the split). -/
def DigitRun (d : List Char) : Prop := d ≠ [] ∧ ∀ c ∈ d, pyDigit c = true

/-- The alternating shape of `re.split(r"(\d+)", s)`: a digit-free run,
then any number of (nonempty digit run, digit-free run) pairs. -/
inductive SplitShape : List (List Char) → Prop where
  | single (t : List Char) : TextRun t → SplitShape [t]
  | cons (t d : List Char) (rest : List (List Char)) :
      TextRun t → DigitRun d → SplitShape rest → SplitShape (t :: d :: rest)

/-- The parity shape of a natural-sort key: strings at even positions,
numbers at odd positions, starting and ending with a string. -/
inductive KeyShape : List SortPart → Prop where
  | single (t : List Char) : KeyShape [SortPart.str t]
  | cons (t : List Char) (n : Nat) (rest : List SortPart) :
      KeyShape rest → KeyShape (SortPart.str t :: SortPart.num n :: rest)

/-- Models POSIX `os.path.basename`: the part after the last `/`. -/
def basenameL (l : List Char) : List Char :=
  ((l.reverse.takeWhile (fun c => c ≠ '/'))).reverse

/-- `os.path.basename` on strings. -/
def basenameS (s : String) : String := String.mk (basenameL s.toList)

/-- Models the extension component of POSIX `os.path.splitext`: the part
of the basename from its last dot on, provided some character of the
basename strictly before that dot is not itself a dot (so leading dots,
as in `.gitignore`, do not start an extension). -/
def pyExtL (p : List Char) : List Char :=
  let b := basenameL p
  let r := b.reverse
  let pre := r.takeWhile (fun c => c ≠ '.')
  if pre.length = r.length then []
  else if (b.take (b.length - pre.length - 1)).any (fun c => c ≠ '.') then '.' :: pre.reverse
  else []

/-- Lower-cased extension of a filename, as a string (ASCII lower). -/
def lowerExt (s : String) : String :=
  String.mk ((pyExtL s.toList).map Char.toLower)

/-- Models `app.py` `ALLOWED_IMAGE_EXTENSIONS` (a set literal; modelled
as the list of its members). -/
def ALLOWED_IMAGE_EXTENSIONS : List String :=
  [".jpg", ".jpeg", ".png", ".webp", ".gif", ".bmp", ".avif"]

/-- Models `app.py` `_is_allowed_image_filename`: the lower-cased
`splitext` extension is in the allowed set. -/
def is_allowed_image_filename (filename : String) : Bool :=
  ALLOWED_IMAGE_EXTENSIONS.contains (lowerExt filename)

/-- Models Python `str.split()` (split on whitespace runs, no empties):
step function folded from the right, carrying (current word, words). -/
def splitWsStep (c : Char) (acc : List Char × List (List Char)) : List Char × List (List Char) :=
  if pySpace c then ([], if acc.1.isEmpty then acc.2 else acc.1 :: acc.2)
  else (c :: acc.1, acc.2)

/-- Python `str.split()` on a character list. -/
def splitWs (l : List Char) : List (List Char) :=
  let acc := l.foldr splitWsStep ([], [])
  if acc.1.isEmpty then acc.2 else acc.1 :: acc.2

/-- Characters kept by werkzeug's `_filename_ascii_strip_re` (it removes
everything outside `[A-Za-z0-9_.-]`). -/
def keepChar (c : Char) : Bool := c.isAlphanum || c = '_' || c = '.' || c = '-'

/-- Strip the characters `.` and `_` from both ends, modelling Python's
`str.strip("._")`. -/
def stripDotUnderscore (l : List Char) : List Char :=
  ((l.dropWhile (fun c => c = '.' || c = '_')).reverse.dropWhile
    (fun c => c = '.' || c = '_')).reverse

/-- Models werkzeug's `secure_filename` for ASCII input on POSIX: drop
non-ASCII bytes (the NFKD/ascii-encode step), replace `os.sep` = `/` by a
space, split on whitespace and join with `_`, remove characters outside
`[A-Za-z0-9_.-]`, and strip `.`/`_` from both ends (the Windows device
name check does not apply on POSIX). -/
def secure_filename (f : String) : String :=
  let l0 := f.toList.filter (fun c => c.toNat ≤ 127)
  let l1 := l0.map (fun c => if c = '/' then ' ' else c)
  let l2 := List.intercalate ['_'] (splitWs l1)
  String.mk (stripDotUnderscore (l2.filter keepChar))

/-- Models Python `str.strip()` (whitespace from both ends). -/
def pyStrip (s : String) : String :=
  String.mk (((s.toList.dropWhile pySpace).reverse.dropWhile pySpace).reverse)

/-! ## Data model (tables from `init_db.py`) -/

/-- Row of the `series` table (`init_db.py`): id, title, slug (unique),
genre, description, cover_path. -/
structure SeriesRow where
  id : Nat
  title : String
  slug : String
  genre : Option String
  description : Option String
  cover_path : Option String
deriving DecidableEq

/-- Row of the `chapters` table (`init_db.py`): each row is one page of a
chapter of a series (the surrogate `id` column plays no role in the
handlers and is omitted). -/
structure ChapterRow where
  series_id : Nat
  chapter_number : Nat
  page_number : Nat
  image_path : String
deriving DecidableEq

/-- Row of the `users` table (`init_db.py`). -/
structure UserRow where
  id : Nat
  username : String
  password : String
  role : String
deriving DecidableEq

/-- Row of the `bookmarks` table (`init_db.py`): the surrogate
autoincrement `id` is omitted, the handlers never consult it. -/
structure BookmarkRow where
  user_id : Nat
  series_id : Nat
  last_chapter : Option Nat
deriving DecidableEq

/-- Models `SELECT ... FROM series WHERE slug = ?` + `fetchone()`: the
first row whose slug matches. -/
def findSeries (tbl : List SeriesRow) (slug : String) : Option SeriesRow :=
  tbl.find? (fun r => r.slug == slug)

/-- Fresh series id for an insert (`INTEGER PRIMARY KEY AUTOINCREMENT`). -/
def freshSeriesId (tbl : List SeriesRow) : Nat :=
  (tbl.map (fun r => r.id)).foldr max 0 + 1

/-- Fresh user id for an insert (`INTEGER PRIMARY KEY AUTOINCREMENT`). -/
def freshUserId (tbl : List UserRow) : Nat :=
  (tbl.map (fun r => r.id)).foldr max 0 + 1

/-! ## Redirect-target validation (`_is_safe_next_path` and callers) -/

/-- Models `app.py` `_is_safe_next_path`: `bool(path)` and
`path.startswith("/")` and `not path.startswith("//")`. -/
def is_safe_next_path (p : String) : Bool :=
  match p.toList with
  | [] => false
  | c :: rest =>
    c = '/' && (match rest with
      | [] => true
      | c2 :: _ => c2 ≠ '/')

/-- Models Python's `x or y` on an optional request parameter: a missing
parameter and an empty string are both falsy. -/
def pyOr (o : Option String) (d : String) : String :=
  match o with
  | some s => if s = "" then d else s
  | none => d

/-- Models the shared pattern
`next = first or second or default; if not _is_safe_next_path(next): next = default`
used by the login, registration, admin-access and bookmark handlers. -/
def resolve_next_path (first second : Option String) (default : String) : String :=
  let np := pyOr first (pyOr second default)
  if is_safe_next_path np then np else default

/-- Next-path resolution in `user_login` (args, then form, then
`url_for("index")` = `/`). -/
def user_login_next (argsNext formNext : Option String) : String :=
  resolve_next_path argsNext formNext "/"

/-- Next-path resolution in `user_register` (args, then form, then `/`). -/
def user_register_next (argsNext formNext : Option String) : String :=
  resolve_next_path argsNext formNext "/"

/-- Next-path resolution in `admin_access` (args, then form, then
`url_for("admin_panel")` = `/admin`). -/
def admin_access_next (argsNext formNext : Option String) : String :=
  resolve_next_path argsNext formNext "/admin"

/-- Next-path resolution in `toggle_bookmark` (form first, then args,
then `/`). -/
def toggle_bookmark_next (formNext argsNext : Option String) : String :=
  resolve_next_path formNext argsNext "/"

/-- Spec-side characterization of a safe redirect target, following the
spec's words: a non-empty string that starts with a single `/` and does
not start with `//`. -/
def SafePathSpec (r : String) : Prop :=
  r ≠ "" ∧ r.toList.head? = some '/' ∧ (r.toList.drop 1).head? ≠ some '/'

/-! ## Admin gate (`require_admin_key`, `admin_access`) -/

/-- Response of the admin routes, up to template rendering. -/
inductive AdminResponse where
  | panel
  | redirectTo (path : String) (query : List (String × String))
  | accessPage (error : Option String)
deriving DecidableEq

/-- Models `GET /admin`: `require_admin_key` around `admin_panel` — with
the session flag the panel renders, otherwise
`redirect(url_for("admin_access", next=request.path))` with
`request.path = "/admin"`. -/
def admin_panel_route (isAdmin : Bool) : AdminResponse :=
  if isAdmin then AdminResponse.panel
  else AdminResponse.redirectTo "/admin/access" [("next", "/admin")]

/-- Models `POST /admin/access`: resolve the next path, then compare the
submitted key against the server key (`hmac.compare_digest` computes
equality in constant time); on a match set `session["is_admin"]` and
redirect to the next path, otherwise re-render the form with an error.
Returns (new admin flag, response). -/
def admin_access_post (isAdmin : Bool) (argsNext formNext : Option String)
    (submittedKey adminKey : String) : Bool × AdminResponse :=
  let np := admin_access_next argsNext formNext
  if submittedKey = adminKey then (true, AdminResponse.redirectTo np [])
  else (isAdmin, AdminResponse.accessPage (some "Invalid access key."))

/-! ## Bookmark toggle (`toggle_bookmark`) -/

/-- The `WHERE user_id = ? AND series_id = ?` predicate of the bookmark
queries. -/
def bookmarkMatches (uid sid : Nat) (r : BookmarkRow) : Bool :=
  r.user_id == uid && r.series_id == sid

/-- Models `POST /bookmark/<slug>` for a logged-in user `uid`: resolve
the series by slug (404 → `none` if absent); if a bookmark row for
(user, series) exists, `DELETE` all such rows, else `INSERT` one with
`last_chapter` null. Returns the new bookmarks table. -/
def toggle_bookmark (tbl : List SeriesRow) (bms : List BookmarkRow)
    (uid : Nat) (slug : String) : Option (List BookmarkRow) :=
  match findSeries tbl slug with
  | none => none
  | some s =>
    if bms.any (bookmarkMatches uid s.id) then
      some (bms.filter (fun r => !(bookmarkMatches uid s.id r)))
    else
      some (bms ++ [⟨uid, s.id, none⟩])

/-! ## Registration (`user_register`) -/

/-- Outcome of a `POST /user/register`. -/
inductive RegResult where
  | formError (msg : String)
  | success
deriving DecidableEq

/-- Models the `POST` branch of `user_register`: strip the username,
run the validation chain, then `INSERT` with role `"user"`; the UNIQUE
constraint on `username` raises `IntegrityError` when the username is
taken, reported as an inline error with no row inserted. Returns
(outcome, new users table). -/
def user_register_post (users : List UserRow) (usernameRaw password confirm : String) :
    RegResult × List UserRow :=
  if pyStrip usernameRaw = "" ∨ password = "" then
    (RegResult.formError "Username and password are required.", users)
  else if (pyStrip usernameRaw).length < 3 then
    (RegResult.formError "Username must be at least 3 characters.", users)
  else if password.length < 4 then
    (RegResult.formError "Password must be at least 4 characters.", users)
  else if password ≠ confirm then
    (RegResult.formError "Passwords do not match.", users)
  else if users.any (fun u => u.username == pyStrip usernameRaw) then
    (RegResult.formError "Username already exists.", users)
  else
    (RegResult.success,
      users ++ [⟨freshUserId users, pyStrip usernameRaw, password, "user"⟩])

/-! ## Series creation (`add_series`) -/

/-- Outcome of a `POST /admin/add-series` (a 400 page with a message, or
a redirect to the admin panel). -/
inductive AddSeriesResult where
  | badRequest (msg : String)
  | redirectAdmin
deriving DecidableEq

/-- Models a filesystem as the list of paths of existing files. Saving
an upload overwrites any same-named file. -/
def saveFile (path : String) (fs : List String) : List String :=
  if path ∈ fs then fs else fs ++ [path]

/-- Models `os.remove` guarded by `os.path.exists`. -/
def removeFile (path : String) (fs : List String) : List String :=
  fs.erase path

/-- Models `INSERT INTO series ...`: the UNIQUE constraint on `slug`
raises `IntegrityError` when the slug is already present. -/
def insertSeries (tbl : List SeriesRow) (row : SeriesRow) : Except Unit (List SeriesRow) :=
  if tbl.any (fun r => r.slug == row.slug) then Except.error ()
  else Except.ok (tbl ++ [row])

/-- The cover file name derived in `add_series` and `set_cover`:
`f"{slug}_cover{cover_ext}"` with the lower-cased extension of the
secured basename of the upload. -/
def cover_filename (slug cname : String) : String :=
  slug ++ "_cover" ++ lowerExt (secure_filename (basenameS cname))

/-- `os.path.join(COVER_FOLDER, cover_filename)`. -/
def cover_save_path (slug cname : String) : String :=
  "static/covers/" ++ cover_filename slug cname

/-- The cover path recorded in the series row. -/
def cover_db_path (slug cname : String) : String :=
  "covers/" ++ cover_filename slug cname

/-- Models the `POST` branch of `add_series`: validate the cover upload,
derive the cover filename from the slug, check for an existing slug
pre-emptively, then save the file and insert the row; on an
`IntegrityError` the saved file is removed and the same error message is
returned. Returns (outcome, new series table, new filesystem). -/
def add_series_post (tbl : List SeriesRow) (fs : List String)
    (title slug : String) (genre description : Option String)
    (coverFilename : Option String) :
    AddSeriesResult × List SeriesRow × List String :=
  match coverFilename with
  | none => (AddSeriesResult.badRequest "Cover image is required.", tbl, fs)
  | some cname =>
    if cname = "" then (AddSeriesResult.badRequest "Cover image is required.", tbl, fs)
    else if !(is_allowed_image_filename cname) then
      (AddSeriesResult.badRequest "Invalid cover image format.", tbl, fs)
    else if tbl.any (fun r => r.slug == slug) then
      (AddSeriesResult.badRequest "Slug already exists. Use a unique slug.", tbl, fs)
    else
      match insertSeries tbl
        ⟨freshSeriesId tbl, title, slug, genre, description, some (cover_db_path slug cname)⟩ with
      | Except.ok tbl2 =>
        (AddSeriesResult.redirectAdmin, tbl2, saveFile (cover_save_path slug cname) fs)
      | Except.error _ =>
        (AddSeriesResult.badRequest "Slug already exists. Use a unique slug.", tbl,
          removeFile (cover_save_path slug cname) (saveFile (cover_save_path slug cname) fs))

/-! ## Chapter upload (`upload_chapter`) -/

/-- A page row produced by the upload handler, enriched with the original
upload filename so that theorems can speak about which uploaded image got
which page number. -/
structure PageRow where
  origName : String
  pageNumber : Nat
  imagePath : String
deriving DecidableEq

/-- Lower-cased extension of `secure_filename(os.path.basename(f))`, as
computed per image inside the upload loop. -/
def uploadExt (f : String) : String := lowerExt (secure_filename (basenameS f))

/-- The stored image path for one accepted page:
`"/" + os.path.join(UPLOAD_FOLDER, f"{slug}_ch{ch}_{page}{ext or '.jpg'}").replace("\\", "/")`. -/
def uploadImagePath (slug : String) (ch page : Nat) (ext : String) : String :=
  let fname := slug.toList ++ "_ch".toList ++ (toString ch).toList ++ "_".toList
    ++ (toString page).toList ++ (if ext = "" then ".jpg" else ext).toList
  String.mk ('/' :: ("static/uploads/".toList ++ fname).map (fun c => if c = '\\' then '/' else c))

/-- The body of the upload loop: walk the sorted images, skip any whose
extension is not allowed, and give each accepted image the next 1-based
page number. -/
def uploadProcess (slug : String) (ch : Nat) : List String → Nat → List PageRow
  | [], _ => []
  | f :: rest, page =>
    if uploadExt f ∈ ALLOWED_IMAGE_EXTENSIONS then
      { origName := f, pageNumber := page, imagePath := uploadImagePath slug ch page (uploadExt f) }
        :: uploadProcess slug ch rest (page + 1)
    else uploadProcess slug ch rest page

/-- Models `images.sort(key=lambda img: _natural_sort_key(os.path.basename(img.filename)))`:
a stable ascending sort by natural key; `r a b` holds when `a` need not
come strictly after `b`, matching Python's stable sort. -/
def sortImages (files : List String) : List String :=
  List.insertionSort
    (fun a b => keyLtB (natural_sort_key (basenameS b)) (natural_sort_key (basenameS a)) = false)
    files

/-- Models the `POST` branch of `upload_chapter` for an existing series:
keep uploads with a nonempty filename, sort them by natural key of their
basename, then number and store the accepted ones; errors mirror the
handler's two 400 responses. -/
def upload_chapter_post (slug : String) (ch : Nat) (files : List String) :
    Except String (List PageRow) :=
  if (files.filter (fun f => !(f == ""))).isEmpty then
    Except.error "No files were selected."
  else if (uploadProcess slug ch (sortImages (files.filter (fun f => !(f == "")))) 1).isEmpty then
    Except.error "No valid image files found in the selected folder."
  else Except.ok (uploadProcess slug ch (sortImages (files.filter (fun f => !(f == "")))) 1)

/-! ## Path resolution and chapter deletion (`delete_chapter`) -/

/-- Split a character list at `/`, keeping empty pieces, modelling how a
POSIX path string divides into components. -/
def splitSlash : List Char → List (List Char)
  | [] => [[]]
  | c :: cs =>
    match splitSlash cs with
    | t :: rest => if c = '/' then [] :: t :: rest else (c :: t) :: rest
    | [] => [[c]]

/-- Lexical component normalization as in `os.path.normpath` applied to
an absolute base: skip empty and `.` components, pop one component on
`..` (staying at the root when already there), append anything else. -/
def normJoin (base : List (List Char)) : List (List Char) → List (List Char)
  | [] => base
  | c :: rest =>
    if c = ([] : List Char) then normJoin base rest
    else if c = ['.'] then normJoin base rest
    else if c = ['.', '.'] then normJoin base.dropLast rest
    else normJoin (base ++ [c]) rest

/-- Models `os.path.abspath` on POSIX (with `os.path.normcase` the
identity): resolve `p` against the current working directory `cwd`,
given as the component list of an absolute path. The result is the
component list of the resolved absolute path. -/
def abspathM (cwd : List (List Char)) (p : List Char) : List (List Char) :=
  if p.head? = some '/' then normJoin [] (splitSlash p)
  else normJoin cwd (splitSlash p)

/-- Models `page["image_path"].lstrip("/\\")`. -/
def lstripSlashes (l : List Char) : List Char :=
  l.dropWhile (fun c => c = '/' || c = '\\')

/-- The managed asset root `os.path.abspath("static")` in components. -/
def static_root (cwd : List (List Char)) : List (List Char) :=
  abspathM cwd "static".toList

/-- Models `absolute_path.startswith(static_root + os.sep)` on resolved
component lists: the root's components are a proper prefix of the path's. -/
def underStaticRoot (cwd : List (List Char)) (absp : List (List Char)) : Bool :=
  (static_root cwd).isPrefixOf absp && decide ((static_root cwd).length < absp.length)

/-- The resolved absolute target of one page row's `image_path`, exactly
as `delete_chapter` computes it before its containment check. -/
def pageAbsPath (cwd : List (List Char)) (imagePath : String) : List (List Char) :=
  abspathM cwd (lstripSlashes imagePath.toList)

/-- Outcome of `POST /admin/delete-chapter/<slug>/<n>` (always a redirect
to the admin panel, carrying a notice or an error message). -/
inductive DeleteResult where
  | notice (msg : String)
  | errorMsg (msg : String)
deriving DecidableEq

/-- Models `delete_chapter`: resolve the series by slug, collect the page
rows of (series, chapter_number), and if any exist delete them all from
the table, then best-effort delete each referenced file — but only when
its resolved absolute path lies under the `static` root; the filesystem
is a list of resolved absolute paths (in components). Returns
(outcome, new chapters table, new filesystem). -/
def chapterMatches (sid ch : Nat) (r : ChapterRow) : Bool :=
  r.series_id == sid && r.chapter_number == ch

/-- The file-deletion loop of `delete_chapter`: for each page row,
resolve its `image_path` and remove the file only when the resolved path
lies under the `static` root and the file exists (`os.path.isfile`);
failures and skips leave the filesystem untouched. -/
def deleteChapterFiles (cwd : List (List Char)) (pages : List ChapterRow)
    (fs : List (List (List Char))) : List (List (List Char)) :=
  pages.foldl
    (fun acc p =>
      if underStaticRoot cwd (pageAbsPath cwd p.image_path) then
        (if pageAbsPath cwd p.image_path ∈ acc then acc.erase (pageAbsPath cwd p.image_path)
         else acc)
      else acc)
    fs

def delete_chapter (tbl : List SeriesRow) (chapters : List ChapterRow)
    (fs : List (List (List Char))) (cwd : List (List Char))
    (slug : String) (ch : Nat) :
    DeleteResult × List ChapterRow × List (List (List Char)) :=
  match findSeries tbl slug with
  | none => (DeleteResult.errorMsg "Series not found.", chapters, fs)
  | some s =>
    if (chapters.filter (chapterMatches s.id ch)).isEmpty then
      (DeleteResult.errorMsg ("Chapter " ++ toString ch ++ " not found."), chapters, fs)
    else
      (DeleteResult.notice ("Deleted chapter " ++ toString ch ++ " from " ++ s.title ++ "."),
        chapters.filter (fun r => !(chapterMatches s.id ch r)),
        deleteChapterFiles cwd (chapters.filter (chapterMatches s.id ch)) fs)

/-! ## Reader (`read_chapter`) -/

/-- Models `GET /read/<slug>/chapter/<n>`: resolve the series (404 →
`none`), load the page rows of the chapter ordered by `page_number`, and
the distinct chapter numbers of the series in order; 404 when the chapter
has zero pages. -/
def chapterPages (chapters : List ChapterRow) (sid ch : Nat) : List ChapterRow :=
  List.insertionSort (fun a b => a.page_number ≤ b.page_number)
    (chapters.filter (chapterMatches sid ch))

/-- Models `SELECT DISTINCT chapter_number ... ORDER BY chapter_number`. -/
def availableChapters (chapters : List ChapterRow) (sid : Nat) : List Nat :=
  List.insertionSort (fun a b => a ≤ b)
    (((chapters.filter (fun r => r.series_id == sid)).map (fun r => r.chapter_number)).dedup)

def read_chapter (tbl : List SeriesRow) (chapters : List ChapterRow)
    (slug : String) (ch : Nat) : Option (List ChapterRow × List Nat) :=
  match findSeries tbl slug with
  | none => none
  | some s =>
    if (chapterPages chapters s.id ch).isEmpty then none
    else some (chapterPages chapters s.id ch, availableChapters chapters s.id)

/-! ## Theorems -/

/-- The boolean validator agrees with the spec-side characterization of a
safe redirect target. -/
theorem is_safe_next_path_iff (p : String) :
    is_safe_next_path p = true ↔ SafePathSpec p := by
  obtain ⟨l⟩ := p
  have hne : (String.mk l ≠ "") ↔ l ≠ [] := by
    simp [String.ext_iff]
  rcases l with _ | ⟨c, _ | ⟨c2, rest⟩⟩
  · simp [is_safe_next_path, SafePathSpec, hne]
  · simp [is_safe_next_path, SafePathSpec, hne, String.toList]
  · simp [is_safe_next_path, SafePathSpec, hne, String.toList]

/-- Resolving a next path always lands on a validated value or the
default. -/
theorem resolve_next_path_safe_or_default (a f : Option String) (d : String) :
    SafePathSpec (resolve_next_path a f d) ∨ resolve_next_path a f d = d := by
  unfold resolve_next_path
  by_cases h : is_safe_next_path (pyOr a (pyOr f d)) = true
  · left
    rw [if_pos h]
    exact (is_safe_next_path_iff _).mp h
  · right
    rw [if_neg h]

/-- A supplied value that fails validation is never used. -/
theorem resolve_next_path_default_of_unsafe (a f : Option String) (d : String)
    (h : is_safe_next_path (pyOr a (pyOr f d)) = false) :
    resolve_next_path a f d = d := by
  unfold resolve_next_path
  rw [if_neg (by simp [h])]

/-- C7: for every "return to" parameter supplied to the user login,
registration, admin access, or bookmark toggle handlers, the redirect
target actually used is either a same-origin absolute path — a non-empty
string starting with a single `/` and not starting with `//` — or the
handler's default path; any supplied value that fails the validation is
replaced by the default. -/
theorem next_path_always_safe_or_default (argsNext formNext : Option String) :
    (SafePathSpec (user_login_next argsNext formNext) ∨
      user_login_next argsNext formNext = "/") ∧
    (SafePathSpec (user_register_next argsNext formNext) ∨
      user_register_next argsNext formNext = "/") ∧
    (SafePathSpec (admin_access_next argsNext formNext) ∨
      admin_access_next argsNext formNext = "/admin") ∧
    (SafePathSpec (toggle_bookmark_next argsNext formNext) ∨
      toggle_bookmark_next argsNext formNext = "/") ∧
    (∀ d, is_safe_next_path (pyOr argsNext (pyOr formNext d)) = false →
      resolve_next_path argsNext formNext d = d) :=
  ⟨resolve_next_path_safe_or_default argsNext formNext "/",
   resolve_next_path_safe_or_default argsNext formNext "/",
   resolve_next_path_safe_or_default argsNext formNext "/admin",
   resolve_next_path_safe_or_default argsNext formNext "/",
   fun d h => resolve_next_path_default_of_unsafe argsNext formNext d h⟩

/-- Witness for `next_path_always_safe_or_default`: an unvalidated
protocol-relative value is replaced by the login default. -/
theorem next_path_always_safe_or_default_witness :
    user_login_next (some "//evil.example") none = "/" ∧
    (SafePathSpec (user_login_next (some "/series/abc") none) ∨
      user_login_next (some "/series/abc") none = "/") :=
  ⟨(next_path_always_safe_or_default (some "//evil.example") none).2.2.2.2 "/" (by decide),
   (next_path_always_safe_or_default (some "/series/abc") none).1⟩

/-- C6: a request to `/admin` without the admin session flag redirects to
`/admin/access` with `next=/admin`; submitting the access key equal to
the server key (the constant-time comparison computes equality) sets the
admin flag and redirects back to `/admin`. -/
theorem admin_gate_redirect_and_unlock (adminKey : String) :
    admin_panel_route false =
      AdminResponse.redirectTo "/admin/access" [("next", "/admin")] ∧
    admin_access_post false (some "/admin") none adminKey adminKey =
      (true, AdminResponse.redirectTo "/admin" []) := by
  refine ⟨rfl, ?_⟩
  have hnp : admin_access_next (some "/admin") none = "/admin" := by decide
  simp [admin_access_post, hnp]

/-- A row with the given username makes the table's `any` check fire. -/
theorem users_any_username (users : List UserRow) (n : String) (u : UserRow)
    (hu : u ∈ users) (h : u.username = n) :
    (users.any fun x => x.username == n) = true := by
  simp only [List.any_eq_true]
  exact ⟨u, hu, by simp [h]⟩

/-- C8: every account created through self-registration is stored with
role `"user"` and a username no existing row carries; a registration with
an already-taken username (valid inputs otherwise) fails with the
"Username already exists." error and inserts no row; and registration
preserves the invariant that no two user rows share a username. -/
theorem user_register_role_and_uniqueness (users : List UserRow) (un pw c : String) :
    ((user_register_post users un pw c).2 = users ∨
      ∃ r, (user_register_post users un pw c).2 = users ++ [r] ∧ r.role = "user" ∧
        ∀ u ∈ users, u.username ≠ r.username) ∧
    ((∃ u ∈ users, u.username = pyStrip un) →
      (user_register_post users un pw c).2 = users ∧
      (user_register_post users un pw c).1 ≠ RegResult.success) ∧
    ((users.map (fun u => u.username)).Nodup →
      ((user_register_post users un pw c).2.map (fun u => u.username)).Nodup) ∧
    ((∃ u ∈ users, u.username = pyStrip un) → ¬(pyStrip un = "" ∨ pw = "") →
      ¬(pyStrip un).length < 3 → ¬pw.length < 4 → pw = c →
      user_register_post users un pw c =
        (RegResult.formError "Username already exists.", users)) := by
  have hmain :
      (user_register_post users un pw c =
          (RegResult.success, users ++ [⟨freshUserId users, pyStrip un, pw, "user"⟩]) ∧
        (users.any fun u => u.username == pyStrip un) = false) ∨
      ((user_register_post users un pw c).2 = users ∧
        (user_register_post users un pw c).1 ≠ RegResult.success) := by
    by_cases hA : pyStrip un = "" ∨ pw = ""
    · refine Or.inr ?_
      unfold user_register_post
      rw [if_pos hA]
      exact ⟨rfl, by simp⟩
    by_cases hB : (pyStrip un).length < 3
    · refine Or.inr ?_
      unfold user_register_post
      rw [if_neg hA, if_pos hB]
      exact ⟨rfl, by simp⟩
    by_cases hC : pw.length < 4
    · refine Or.inr ?_
      unfold user_register_post
      rw [if_neg hA, if_neg hB, if_pos hC]
      exact ⟨rfl, by simp⟩
    by_cases hD : pw ≠ c
    · refine Or.inr ?_
      unfold user_register_post
      rw [if_neg hA, if_neg hB, if_neg hC, if_pos hD]
      exact ⟨rfl, by simp⟩
    by_cases hE : (users.any fun u => u.username == pyStrip un) = true
    · refine Or.inr ?_
      unfold user_register_post
      rw [if_neg hA, if_neg hB, if_neg hC, if_neg hD, if_pos hE]
      exact ⟨rfl, by simp⟩
    · refine Or.inl ⟨?_, by simpa using hE⟩
      unfold user_register_post
      rw [if_neg hA, if_neg hB, if_neg hC, if_neg hD, if_neg hE]
  refine ⟨?_, ?_, ?_, ?_⟩
  · rcases hmain with ⟨heq, hany⟩ | ⟨h2, _⟩
    · right
      refine ⟨⟨freshUserId users, pyStrip un, pw, "user"⟩, by rw [heq], rfl, ?_⟩
      intro u hu hcontra
      have hT := users_any_username users (pyStrip un) u hu hcontra
      rw [hany] at hT
      exact absurd hT (by decide)
    · exact Or.inl h2
  · rintro ⟨u, hu, huname⟩
    rcases hmain with ⟨heq, hany⟩ | h2
    · exfalso
      have hT := users_any_username users (pyStrip un) u hu huname
      rw [hany] at hT
      exact absurd hT (by decide)
    · exact h2
  · intro hnd
    rcases hmain with ⟨heq, hany⟩ | ⟨h2, _⟩
    · rw [heq]
      simp only [List.map_append, List.map_cons, List.map_nil]
      refine List.Nodup.append hnd (by simp) ?_
      intro a ha hb
      simp only [List.mem_singleton] at hb
      simp only [List.mem_map] at ha
      obtain ⟨u, hu, hua⟩ := ha
      have hT := users_any_username users (pyStrip un) u hu (by rw [hua, hb])
      rw [hany] at hT
      exact absurd hT (by decide)
    · rw [h2]; exact hnd
  · rintro ⟨u, hu, huname⟩ h1 h3 h4 hpc
    unfold user_register_post
    rw [if_neg h1, if_neg h3, if_neg h4, if_neg (fun h => h hpc),
      if_pos (users_any_username users (pyStrip un) u hu huname)]

/-- Witness for `user_register_role_and_uniqueness`: registering the
already-taken username `alice` fails and leaves the table unchanged. -/
theorem user_register_role_and_uniqueness_witness :
    user_register_post [⟨1, "alice", "old", "user"⟩] "alice" "pass" "pass" =
      (RegResult.formError "Username already exists.", [⟨1, "alice", "old", "user"⟩]) :=
  (user_register_role_and_uniqueness [⟨1, "alice", "old", "user"⟩] "alice" "pass" "pass").2.2.2
    (by refine ⟨⟨1, "alice", "old", "user"⟩, by simp, by decide⟩)
    (by decide) (by decide) (by decide) rfl

/-- A row with the given slug makes the series `any` check fire. -/
theorem series_any_slug (tbl : List SeriesRow) (slug : String) (r : SeriesRow)
    (hr : r ∈ tbl) (h : r.slug = slug) :
    (tbl.any fun x => x.slug == slug) = true := by
  simp only [List.any_eq_true]
  exact ⟨r, hr, by simp [h]⟩

/-- C4: a create-series request whose slug equals an existing row's slug
fails with the duplicate-slug error, inserts no series row, and leaves
the filesystem exactly as it was (no cover file remains). -/
theorem add_series_duplicate_slug_rejected (tbl : List SeriesRow) (fs : List String)
    (title slug : String) (genre descr : Option String) (cname : String)
    (hc : cname ≠ "") (hall : is_allowed_image_filename cname = true)
    (hdup : ∃ r ∈ tbl, r.slug = slug) :
    add_series_post tbl fs title slug genre descr (some cname) =
      (AddSeriesResult.badRequest "Slug already exists. Use a unique slug.", tbl, fs) := by
  obtain ⟨r, hr, hslug⟩ := hdup
  simp only [add_series_post]
  rw [if_neg hc, if_neg (by simp [hall]), if_pos (series_any_slug tbl slug r hr hslug)]

/-- Witness for `add_series_duplicate_slug_rejected`. -/
theorem add_series_duplicate_slug_rejected_witness :
    add_series_post [⟨1, "T", "dup", none, none, none⟩] ["old"] "T2" "dup"
        none none (some "c.png") =
      (AddSeriesResult.badRequest "Slug already exists. Use a unique slug.",
        [⟨1, "T", "dup", none, none, none⟩], ["old"]) :=
  add_series_duplicate_slug_rejected _ _ _ _ _ _ _ (by decide) (by decide)
    ⟨⟨1, "T", "dup", none, none, none⟩, by simp, rfl⟩

/-- C3: for a logged-in user and a series resolved by slug, toggling the
bookmark twice returns the bookmark table to its prior state (as a set of
rows): a present row is deleted and an absent one is inserted with
`last_chapter` null. -/
theorem toggle_bookmark_involution (tbl : List SeriesRow) (bms : List BookmarkRow)
    (uid : Nat) (slug : String) (s : SeriesRow) (hs : findSeries tbl slug = some s)
    (hone : ∀ r ∈ bms, r.user_id = uid → r.series_id = s.id → r = ⟨uid, s.id, none⟩)
    (hcount : (bms.filter (bookmarkMatches uid s.id)).length ≤ 1) :
    ∃ b1 b2, toggle_bookmark tbl bms uid slug = some b1 ∧
      toggle_bookmark tbl b1 uid slug = some b2 ∧ List.Perm b2 bms := by
  by_cases hex : bms.any (bookmarkMatches uid s.id) = true
  · -- a bookmark row exists: first toggle deletes it, second reinserts it
    have h1 : toggle_bookmark tbl bms uid slug =
        some (bms.filter fun r => !(bookmarkMatches uid s.id r)) := by
      simp only [toggle_bookmark, hs]
      rw [if_pos hex]
    have hnone :
        ((bms.filter fun r => !(bookmarkMatches uid s.id r)).any
          (bookmarkMatches uid s.id)) = false := by
      cases hb : ((bms.filter fun r => !(bookmarkMatches uid s.id r)).any
          (bookmarkMatches uid s.id)) with
      | false => rfl
      | true =>
        exfalso
        obtain ⟨x, hx, hpx⟩ := List.any_eq_true.mp hb
        have hneg := (List.mem_filter.mp hx).2
        rw [hpx] at hneg
        exact absurd hneg (by decide)
    have h2 : toggle_bookmark tbl
        (bms.filter fun r => !(bookmarkMatches uid s.id r)) uid slug =
        some ((bms.filter fun r => !(bookmarkMatches uid s.id r))
          ++ [(⟨uid, s.id, none⟩ : BookmarkRow)]) := by
      simp only [toggle_bookmark, hs]
      rw [if_neg (by simp [hnone])]
    refine ⟨_, _, h1, h2, ?_⟩
    have hfp : bms.filter (bookmarkMatches uid s.id) = [⟨uid, s.id, none⟩] := by
      have hne : bms.filter (bookmarkMatches uid s.id) ≠ [] := by
        obtain ⟨x, hx, hpx⟩ := List.any_eq_true.mp hex
        intro h0
        have hmem : x ∈ bms.filter (bookmarkMatches uid s.id) :=
          List.mem_filter.mpr ⟨hx, hpx⟩
        rw [h0] at hmem
        exact absurd hmem (List.not_mem_nil x)
      have hlen : (bms.filter (bookmarkMatches uid s.id)).length = 1 := by
        have hpos : 0 < (bms.filter (bookmarkMatches uid s.id)).length :=
          List.length_pos.mpr hne
        omega
      obtain ⟨a, ha⟩ := List.length_eq_one.mp hlen
      have haf : a ∈ bms.filter (bookmarkMatches uid s.id) := by
        rw [ha]; exact List.mem_singleton_self a
      obtain ⟨hab, hap⟩ := List.mem_filter.mp haf
      simp only [bookmarkMatches, Bool.and_eq_true, beq_iff_eq] at hap
      rw [ha, hone a hab hap.1 hap.2]
    have heq : (bms.filter fun r => !(bookmarkMatches uid s.id r))
          ++ [(⟨uid, s.id, none⟩ : BookmarkRow)]
        = (bms.filter fun r => !(bookmarkMatches uid s.id r))
          ++ bms.filter (bookmarkMatches uid s.id) := by rw [hfp]
    rw [heq]
    exact List.Perm.trans List.perm_append_comm (List.filter_append_perm _ bms)
  · -- no bookmark row: first toggle inserts one, second deletes it again
    have h1 : toggle_bookmark tbl bms uid slug =
        some (bms ++ [(⟨uid, s.id, none⟩ : BookmarkRow)]) := by
      simp only [toggle_bookmark, hs]
      rw [if_neg hex]
    have hx : ((bms ++ [(⟨uid, s.id, none⟩ : BookmarkRow)]).any
        (bookmarkMatches uid s.id)) = true := by
      simp only [List.any_eq_true]
      exact ⟨(⟨uid, s.id, none⟩ : BookmarkRow), by simp, by simp [bookmarkMatches]⟩
    have h2 : toggle_bookmark tbl (bms ++ [(⟨uid, s.id, none⟩ : BookmarkRow)]) uid slug =
        some ((bms ++ [(⟨uid, s.id, none⟩ : BookmarkRow)]).filter
          fun r => !(bookmarkMatches uid s.id r)) := by
      simp only [toggle_bookmark, hs]
      rw [if_pos hx]
    refine ⟨_, _, h1, h2, ?_⟩
    have hall : ∀ r ∈ bms, (!(bookmarkMatches uid s.id r)) = true := by
      intro r hr
      have hf : bookmarkMatches uid s.id r = false := by
        cases hb : bookmarkMatches uid s.id r with
        | false => rfl
        | true => exact absurd (List.any_eq_true.mpr ⟨r, hr, hb⟩) hex
      simp [hf]
    have hself : (bms ++ [(⟨uid, s.id, none⟩ : BookmarkRow)]).filter
        (fun r => !(bookmarkMatches uid s.id r)) = bms := by
      rw [List.filter_append]
      have h01 : ([(⟨uid, s.id, none⟩ : BookmarkRow)].filter
          fun r => !(bookmarkMatches uid s.id r)) = [] := by
        simp [bookmarkMatches]
      rw [h01, List.append_nil, List.filter_eq_self.mpr hall]
    rw [hself]

/-- Witness for `toggle_bookmark_involution`. -/
theorem toggle_bookmark_involution_witness :
    ∃ b1 b2, toggle_bookmark [⟨1, "T", "s", none, none, none⟩] [⟨7, 1, none⟩] 7 "s" = some b1 ∧
      toggle_bookmark [⟨1, "T", "s", none, none, none⟩] b1 7 "s" = some b2 ∧
      List.Perm b2 [⟨7, 1, none⟩] :=
  toggle_bookmark_involution [⟨1, "T", "s", none, none, none⟩] [⟨7, 1, none⟩] 7 "s"
    ⟨1, "T", "s", none, none, none⟩ (by decide) (by decide) (by decide)

/-- The reader's page list is sorted by page number. -/
theorem chapterPages_sorted (chapters : List ChapterRow) (sid ch : Nat) :
    ((chapterPages chapters sid ch).map (fun r => r.page_number)).Pairwise (· ≤ ·) := by
  haveI : IsTotal ChapterRow (fun a b => a.page_number ≤ b.page_number) :=
    ⟨fun a b => Nat.le_total _ _⟩
  haveI : IsTrans ChapterRow (fun a b => a.page_number ≤ b.page_number) :=
    ⟨fun a b c hab hbc => Nat.le_trans hab hbc⟩
  have hsorted : List.Sorted (fun a b : ChapterRow => a.page_number ≤ b.page_number)
      (chapterPages chapters sid ch) := List.sorted_insertionSort _ _
  exact List.pairwise_map.mpr hsorted

/-- The reader's page list is a permutation of the chapter's page rows. -/
theorem chapterPages_perm (chapters : List ChapterRow) (sid ch : Nat) :
    List.Perm (chapterPages chapters sid ch) (chapters.filter (chapterMatches sid ch)) :=
  List.perm_insertionSort _ _

/-- C5: reading a chapter of an existing series returns not-found when
the chapter has zero page rows (and when the series slug does not
resolve); with at least one page row it returns exactly the chapter's
page rows ordered by page_number ascending — strictly ascending whenever
the chapter's page numbers are distinct. -/
theorem read_chapter_notfound_and_order (tbl : List SeriesRow)
    (chapters : List ChapterRow) (slug : String) (ch : Nat) :
    (findSeries tbl slug = none → read_chapter tbl chapters slug ch = none) ∧
    (∀ s, findSeries tbl slug = some s →
      chapters.filter (chapterMatches s.id ch) = [] →
      read_chapter tbl chapters slug ch = none) ∧
    (∀ s, findSeries tbl slug = some s →
      chapters.filter (chapterMatches s.id ch) ≠ [] →
      ∃ ps, read_chapter tbl chapters slug ch = some (ps, availableChapters chapters s.id) ∧
        List.Perm ps (chapters.filter (chapterMatches s.id ch)) ∧
        (ps.map (fun r => r.page_number)).Pairwise (· ≤ ·) ∧
        (((chapters.filter (chapterMatches s.id ch)).map (fun r => r.page_number)).Nodup →
          (ps.map (fun r => r.page_number)).Pairwise (· < ·))) := by
  refine ⟨?_, ?_, ?_⟩
  · intro h
    simp only [read_chapter, h]
  · intro s hs hf
    simp only [read_chapter, hs]
    rw [if_pos (by simp [chapterPages, hf])]
  · intro s hs hf
    have hperm := chapterPages_perm chapters s.id ch
    have hne : (chapterPages chapters s.id ch).isEmpty = false := by
      cases hb : (chapterPages chapters s.id ch).isEmpty with
      | false => rfl
      | true =>
        exfalso
        have h0 : chapterPages chapters s.id ch = [] := List.isEmpty_iff.mp hb
        rw [h0] at hperm
        exact hf (List.nil_perm.mp hperm)
    simp only [read_chapter, hs]
    rw [if_neg (by simp [hne])]
    refine ⟨chapterPages chapters s.id ch, rfl, hperm, chapterPages_sorted chapters s.id ch, ?_⟩
    intro hnd
    have hndps : ((chapterPages chapters s.id ch).map (fun r => r.page_number)).Nodup :=
      ((hperm.map (fun r => r.page_number)).nodup_iff).mpr hnd
    have hcomb := List.Pairwise.and (chapterPages_sorted chapters s.id ch) hndps
    exact hcomb.imp (fun h => lt_of_le_of_ne h.1 h.2)

/-- Witness for `read_chapter_notfound_and_order`: a two-page chapter is
returned in strictly ascending page order. -/
theorem read_chapter_notfound_and_order_witness :
    ∃ ps, read_chapter [⟨1, "T", "s", none, none, none⟩]
        [⟨1, 1, 2, "/static/uploads/b.png"⟩, ⟨1, 1, 1, "/static/uploads/a.png"⟩] "s" 1 =
        some (ps, availableChapters
          [⟨1, 1, 2, "/static/uploads/b.png"⟩, ⟨1, 1, 1, "/static/uploads/a.png"⟩] 1) ∧
      List.Perm ps ([⟨1, 1, 2, "/static/uploads/b.png"⟩,
        ⟨1, 1, 1, "/static/uploads/a.png"⟩].filter (chapterMatches 1 1)) ∧
      (ps.map (fun r => r.page_number)).Pairwise (· ≤ ·) ∧
      ((([⟨1, 1, 2, "/static/uploads/b.png"⟩,
          ⟨1, 1, 1, "/static/uploads/a.png"⟩].filter (chapterMatches 1 1)).map
            (fun r => r.page_number)).Nodup →
        (ps.map (fun r => r.page_number)).Pairwise (· < ·)) :=
  (read_chapter_notfound_and_order [⟨1, "T", "s", none, none, none⟩]
      [⟨1, 1, 2, "/static/uploads/b.png"⟩, ⟨1, 1, 1, "/static/uploads/a.png"⟩] "s" 1).2.2
    ⟨1, "T", "s", none, none, none⟩ (by decide) (by decide)

/-- Unfolding lemma: the deletion loop on an empty page list. -/
theorem deleteChapterFiles_nil (cwd : List (List Char)) (fs : List (List (List Char))) :
    deleteChapterFiles cwd [] fs = fs := rfl

/-- Unfolding lemma: one step of the deletion loop. -/
theorem deleteChapterFiles_cons (cwd : List (List Char)) (p : ChapterRow)
    (rest : List ChapterRow) (fs : List (List (List Char))) :
    deleteChapterFiles cwd (p :: rest) fs =
      deleteChapterFiles cwd rest
        (if underStaticRoot cwd (pageAbsPath cwd p.image_path) then
          (if pageAbsPath cwd p.image_path ∈ fs then fs.erase (pageAbsPath cwd p.image_path)
           else fs)
         else fs) := rfl

/-- Any file removed by the deletion loop had a resolved path under the
`static` root. -/
theorem deleteChapterFiles_only_under_root (cwd : List (List Char))
    (pages : List ChapterRow) :
    ∀ fs, ∀ f ∈ fs, f ∉ deleteChapterFiles cwd pages fs →
      underStaticRoot cwd f = true := by
  induction pages with
  | nil =>
    intro fs f hf hnot
    rw [deleteChapterFiles_nil] at hnot
    exact absurd hf hnot
  | cons p rest ih =>
    intro fs f hf hnot
    rw [deleteChapterFiles_cons] at hnot
    by_cases hu : underStaticRoot cwd (pageAbsPath cwd p.image_path) = true
    · rw [if_pos hu] at hnot
      by_cases hm : pageAbsPath cwd p.image_path ∈ fs
      · rw [if_pos hm] at hnot
        by_cases hfa : f = pageAbsPath cwd p.image_path
        · rw [hfa]; exact hu
        · exact ih _ f ((List.mem_erase_of_ne hfa).mpr hf) hnot
      · rw [if_neg hm] at hnot
        exact ih _ f hf hnot
    · rw [if_neg hu] at hnot
      exact ih _ f hf hnot

/-- C2: deleting an existing chapter with at least one page row removes
every page row of (series, chapter_number); every file the operation
removes resolved to a path under the managed `static` root, and a page
row whose `image_path` resolves outside that root keeps its file. -/
theorem delete_chapter_rows_and_safe_files (tbl : List SeriesRow)
    (chapters : List ChapterRow) (fs : List (List (List Char)))
    (cwd : List (List Char)) (slug : String) (ch : Nat) (s : SeriesRow)
    (hs : findSeries tbl slug = some s)
    (hp : chapters.filter (chapterMatches s.id ch) ≠ []) :
    (∀ r ∈ (delete_chapter tbl chapters fs cwd slug ch).2.1,
      ¬(r.series_id = s.id ∧ r.chapter_number = ch)) ∧
    (∀ f ∈ fs, f ∉ (delete_chapter tbl chapters fs cwd slug ch).2.2 →
      underStaticRoot cwd f = true) ∧
    (∀ p ∈ chapters, p.series_id = s.id → p.chapter_number = ch →
      underStaticRoot cwd (pageAbsPath cwd p.image_path) = false →
      pageAbsPath cwd p.image_path ∈ fs →
      pageAbsPath cwd p.image_path ∈ (delete_chapter tbl chapters fs cwd slug ch).2.2) := by
  have hred : delete_chapter tbl chapters fs cwd slug ch =
      (DeleteResult.notice ("Deleted chapter " ++ toString ch ++ " from " ++ s.title ++ "."),
        chapters.filter (fun r => !(chapterMatches s.id ch r)),
        deleteChapterFiles cwd (chapters.filter (chapterMatches s.id ch)) fs) := by
    simp only [delete_chapter, hs]
    rw [if_neg (by simp [List.isEmpty_iff, hp])]
  rw [hred]
  refine ⟨?_, ?_, ?_⟩
  · intro r hr hcontra
    have hneg := (List.mem_filter.mp hr).2
    apply absurd hneg
    simp [chapterMatches, hcontra.1, hcontra.2]
  · intro f hf hnot
    exact deleteChapterFiles_only_under_root cwd _ fs f hf hnot
  · intro p hpmem h1 h2 hu hin
    by_contra hnotin
    have := deleteChapterFiles_only_under_root cwd
      (chapters.filter (chapterMatches s.id ch)) fs _ hin hnotin
    rw [hu] at this
    exact absurd this (by decide)

/-- Witness for `delete_chapter_rows_and_safe_files`: a chapter with one
page under the asset root and one crafted traversal path outside it. -/
theorem delete_chapter_rows_and_safe_files_witness :
    (∀ r ∈ (delete_chapter [⟨1, "T", "s", none, none, none⟩]
        [⟨1, 1, 1, "/static/uploads/p1.png"⟩, ⟨1, 1, 2, "static/../secret.txt"⟩]
        [pageAbsPath ["srv".toList] "/static/uploads/p1.png",
          pageAbsPath ["srv".toList] "static/../secret.txt"]
        ["srv".toList] "s" 1).2.1,
      ¬(r.series_id = 1 ∧ r.chapter_number = 1)) ∧
    (∀ f ∈ [pageAbsPath ["srv".toList] "/static/uploads/p1.png",
        pageAbsPath ["srv".toList] "static/../secret.txt"],
      f ∉ (delete_chapter [⟨1, "T", "s", none, none, none⟩]
        [⟨1, 1, 1, "/static/uploads/p1.png"⟩, ⟨1, 1, 2, "static/../secret.txt"⟩]
        [pageAbsPath ["srv".toList] "/static/uploads/p1.png",
          pageAbsPath ["srv".toList] "static/../secret.txt"]
        ["srv".toList] "s" 1).2.2 →
      underStaticRoot ["srv".toList] f = true) ∧
    (∀ p ∈ [⟨1, 1, 1, "/static/uploads/p1.png"⟩,
        (⟨1, 1, 2, "static/../secret.txt"⟩ : ChapterRow)],
      p.series_id = 1 → p.chapter_number = 1 →
      underStaticRoot ["srv".toList] (pageAbsPath ["srv".toList] p.image_path) = false →
      pageAbsPath ["srv".toList] p.image_path ∈
        [pageAbsPath ["srv".toList] "/static/uploads/p1.png",
          pageAbsPath ["srv".toList] "static/../secret.txt"] →
      pageAbsPath ["srv".toList] p.image_path ∈
        (delete_chapter [⟨1, "T", "s", none, none, none⟩]
          [⟨1, 1, 1, "/static/uploads/p1.png"⟩, ⟨1, 1, 2, "static/../secret.txt"⟩]
          [pageAbsPath ["srv".toList] "/static/uploads/p1.png",
            pageAbsPath ["srv".toList] "static/../secret.txt"]
          ["srv".toList] "s" 1).2.2) :=
  delete_chapter_rows_and_safe_files [⟨1, "T", "s", none, none, none⟩]
    [⟨1, 1, 1, "/static/uploads/p1.png"⟩, ⟨1, 1, 2, "static/../secret.txt"⟩]
    [pageAbsPath ["srv".toList] "/static/uploads/p1.png",
      pageAbsPath ["srv".toList] "static/../secret.txt"]
    ["srv".toList] "s" 1 ⟨1, "T", "s", none, none, none⟩ (by decide) (by decide)

/-- A split starting at a digit character begins with an empty text run
followed by a digit run. -/
theorem sdrGo_digit_head (c : Char) (cs : List Char) (h : pyDigit c = true) :
    ∃ d rest, sdrGo (c :: cs) = [] :: d :: rest := by
  cases cs with
  | nil => exact ⟨[c], [[]], by simp [sdrGo, h]⟩
  | cons c2 cs2 =>
    by_cases h2 : pyDigit c2 = true
    · rcases hr : sdrGo (c2 :: cs2) with _ | ⟨t, rtl⟩
      · exact ⟨[c], [], by simp [sdrGo, h, h2, hr]⟩
      · rcases rtl with _ | ⟨d, rest⟩
        · exact ⟨[c], [t], by simp [sdrGo, h, h2, hr]⟩
        · rcases t with _ | ⟨tc, ttl⟩
          · exact ⟨c :: d, rest, by simp [sdrGo, h, h2, hr]⟩
          · exact ⟨[c], (tc :: ttl) :: d :: rest, by simp [sdrGo, h, h2, hr]⟩
    · exact ⟨[c], sdrGo (c2 :: cs2), by
        simp [sdrGo, h, h2]⟩

/-- The split of any character list has the alternating shape. -/
theorem sdrGo_shape (cs : List Char) : SplitShape (sdrGo cs) := by
  induction cs with
  | nil =>
    have hnil : sdrGo [] = [[]] := rfl
    rw [hnil]
    exact SplitShape.single [] (by intro x hx; cases hx)
  | cons c cs ih =>
    have hct : ∀ (t0 : List Char), pyDigit c = false → TextRun t0 → TextRun (c :: t0) := by
      intro t0 hcf ht0 x hx
      rcases List.mem_cons.mp hx with hx | hx
      · rw [hx]; exact hcf
      · exact ht0 x hx
    cases cs with
    | nil =>
      by_cases h : pyDigit c = true
      · have he : sdrGo [c] = [[], [c], []] := by simp [sdrGo, h]
        rw [he]
        refine SplitShape.cons [] [c] [[]] (by intro x hx; cases hx) ?_ ?_
        · exact ⟨by simp, by intro x hx; simp at hx; rw [hx]; exact h⟩
        · exact SplitShape.single [] (by intro x hx; cases hx)
      · have he : sdrGo [c] = [[c]] := by simp [sdrGo, h]
        rw [he]
        refine SplitShape.single [c] ?_
        intro x hx
        simp at hx
        rw [hx]
        simpa using h
    | cons c2 cs2 =>
      by_cases h : pyDigit c = true
      · by_cases h2 : pyDigit c2 = true
        · obtain ⟨d, rest, hr⟩ := sdrGo_digit_head c2 cs2 h2
          rw [hr] at ih
          cases ih with
          | cons t0 d0 rest0 ht0 hd0 hrest0 =>
            have he : sdrGo (c :: c2 :: cs2) = [] :: (c :: d) :: rest := by
              simp [sdrGo, h, h2, hr]
            rw [he]
            refine SplitShape.cons [] (c :: d) rest (by intro x hx; cases hx) ?_ hrest0
            refine ⟨by simp, ?_⟩
            intro x hx
            rcases List.mem_cons.mp hx with hx | hx
            · rw [hx]; exact h
            · exact hd0.2 x hx
        · have he : sdrGo (c :: c2 :: cs2) = [] :: [c] :: sdrGo (c2 :: cs2) := by
            simp [sdrGo, h, h2]
          rw [he]
          refine SplitShape.cons [] [c] _ (by intro x hx; cases hx) ?_ ih
          exact ⟨by simp, by intro x hx; simp at hx; rw [hx]; exact h⟩
      · rcases hr : sdrGo (c2 :: cs2) with _ | ⟨t, rtl⟩
        · have he : sdrGo (c :: c2 :: cs2) = [[c]] := by simp [sdrGo, h, hr]
          rw [he]
          refine SplitShape.single [c] ?_
          intro x hx
          simp at hx
          rw [hx]
          simpa using h
        · have he : sdrGo (c :: c2 :: cs2) = (c :: t) :: rtl := by simp [sdrGo, h, hr]
          rw [hr] at ih
          rw [he]
          cases ih with
          | single t0 ht0 =>
            exact SplitShape.single (c :: t) (hct t (by simpa using h) ht0)
          | cons t0 d0 rest0 ht0 hd0 hrest0 =>
            exact SplitShape.cons (c :: t) d0 rest0 (hct t (by simpa using h) ht0) hd0 hrest0

/-- A digit-free run is kept as a string part by the key conversion. -/
theorem convert_textRun (t : List Char) (ht : TextRun t) :
    (if pyIsdigitStr t then SortPart.num (digitsToNat t) else SortPart.str t) =
      SortPart.str t := by
  cases t with
  | nil => simp [pyIsdigitStr]
  | cons c rest =>
    have hc : pyDigit c = false := ht c (List.mem_cons_self c rest)
    simp [pyIsdigitStr, hc]

/-- A nonempty digit run becomes a numeric part. -/
theorem convert_digitRun (d : List Char) (hd : DigitRun d) :
    (if pyIsdigitStr d then SortPart.num (digitsToNat d) else SortPart.str d) =
      SortPart.num (digitsToNat d) := by
  have h1 : pyIsdigitStr d = true := by
    unfold pyIsdigitStr
    rcases hd with ⟨hne, hall⟩
    cases d with
    | nil => exact absurd rfl hne
    | cons c rest =>
      simp only [List.isEmpty_cons, Bool.not_false, Bool.true_and]
      exact List.all_eq_true.mpr hall
  rw [if_pos h1]

/-- Mapping the key conversion over an alternating split yields a
parity-shaped key. -/
theorem splitShape_keyShape (ps : List (List Char)) (hs : SplitShape ps) :
    KeyShape (ps.map
      (fun part => if pyIsdigitStr part then SortPart.num (digitsToNat part)
        else SortPart.str part)) := by
  induction hs with
  | single t ht =>
    simp only [List.map_cons, List.map_nil]
    rw [convert_textRun t ht]
    exact KeyShape.single t
  | cons t d rest ht hd hrest ih =>
    simp only [List.map_cons]
    rw [convert_textRun t ht, convert_digitRun d hd]
    exact KeyShape.cons t (digitsToNat d) _ ih

/-- Every natural-sort key has the parity shape. -/
theorem natural_sort_key_shape (s : String) : KeyShape (natural_sort_key s) := by
  unfold natural_sort_key
  exact splitShape_keyShape _ (sdrGo_shape _)

/-- Comparing two parity-shaped keys never hits an int-versus-string
mismatch. -/
theorem keyCmp_total {a b : List SortPart} (ha : KeyShape a) (hb : KeyShape b) :
    (keyCmp a b).isSome = true := by
  induction ha generalizing b with
  | single t =>
    cases hb with
    | single t2 =>
      simp only [keyCmp, partCmp]
      cases lexCompare t t2 <;> simp [keyCmp]
    | cons t2 n rest _ =>
      simp only [keyCmp, partCmp]
      cases lexCompare t t2 <;> simp [keyCmp]
  | cons t n rest hrest ih =>
    cases hb with
    | single t2 =>
      simp only [keyCmp, partCmp]
      cases lexCompare t t2 <;> simp [keyCmp]
    | cons t2 n2 rest2 hrest2 =>
      simp only [keyCmp, partCmp]
      cases lexCompare t t2 <;> simp only [keyCmp, partCmp]
      case eq =>
        cases compare n n2 <;> simp [keyCmp]
        case eq => exact ih hrest2
      all_goals simp

/-- C9: the natural-sort comparison is total and never fails: for any two
filenames, the keys produced by `natural_sort_key` always compare
element-wise, because the split yields non-digit runs at even positions
and digit runs at odd positions, so compared elements are always both
strings or both integers. -/
theorem natural_sort_key_comparison_total (a b : String) :
    (keyCmp (natural_sort_key a) (natural_sort_key b)).isSome = true :=
  keyCmp_total (natural_sort_key_shape a) (natural_sort_key_shape b)

/-- C1: for two uploaded images with allowed extensions whose natural
sort keys are strictly ordered, uploading them in the reversed order
`b` then `a` still stores `a` as page 1 and `b` as page 2: the upload
sorts by natural key before numbering, so form order does not affect
page numbering. -/
theorem upload_order_independent (slug : String) (ch : Nat) (a b : String)
    (ha : a ≠ "") (hb : b ≠ "")
    (hea : uploadExt a ∈ ALLOWED_IMAGE_EXTENSIONS)
    (heb : uploadExt b ∈ ALLOWED_IMAGE_EXTENSIONS)
    (hlt : keyLtB (natural_sort_key (basenameS a)) (natural_sort_key (basenameS b)) = true) :
    ∃ pa pb, upload_chapter_post slug ch [b, a] = Except.ok [pa, pb] ∧
      pa.origName = a ∧ pa.pageNumber = 1 ∧ pb.origName = b ∧ pb.pageNumber = 2 := by
  have hfil : List.filter (fun f => !(f == "")) [b, a] = [b, a] := by
    simp [ha, hb]
  have hsort : sortImages [b, a] = [a, b] := by
    simp [sortImages, List.insertionSort, List.orderedInsert, hlt]
  have hrows : uploadProcess slug ch [a, b] 1 =
      [⟨a, 1, uploadImagePath slug ch 1 (uploadExt a)⟩,
       ⟨b, 2, uploadImagePath slug ch 2 (uploadExt b)⟩] := by
    simp [uploadProcess, hea, heb]
  refine ⟨⟨a, 1, uploadImagePath slug ch 1 (uploadExt a)⟩,
    ⟨b, 2, uploadImagePath slug ch 2 (uploadExt b)⟩, ?_, rfl, rfl, rfl, rfl⟩
  unfold upload_chapter_post
  rw [hfil, hsort, hrows]
  rfl

/-- Witness for `upload_order_independent`: `page10.png` uploaded before
`page2.png` still numbers `page2.png` first. -/
theorem upload_order_independent_witness :
    ∃ pa pb, upload_chapter_post "s" 1 ["page10.png", "page2.png"] = Except.ok [pa, pb] ∧
      pa.origName = "page2.png" ∧ pa.pageNumber = 1 ∧
      pb.origName = "page10.png" ∧ pb.pageNumber = 2 :=
  upload_order_independent "s" 1 "page2.png" "page10.png"
    (by decide) (by decide) (by decide) (by decide) (by decide)

/-- Every row produced by the upload loop records an allowed extension
and a stored path built from it. -/
theorem uploadProcess_ext (slug : String) (ch : Nat) (fs : List String) :
    ∀ page row, row ∈ uploadProcess slug ch fs page →
      uploadExt row.origName ∈ ALLOWED_IMAGE_EXTENSIONS ∧
      row.imagePath = uploadImagePath slug ch row.pageNumber (uploadExt row.origName) := by
  induction fs with
  | nil =>
    intro page row h
    simp [uploadProcess] at h
  | cons f rest ih =>
    intro page row h
    by_cases hf : uploadExt f ∈ ALLOWED_IMAGE_EXTENSIONS
    · have he : uploadProcess slug ch (f :: rest) page =
          ⟨f, page, uploadImagePath slug ch page (uploadExt f)⟩
            :: uploadProcess slug ch rest (page + 1) := by
        simp [uploadProcess, hf]
      rw [he] at h
      rcases List.mem_cons.mp h with h | h
      · rw [h]
        exact ⟨hf, rfl⟩
      · exact ih (page + 1) row h
    · have he : uploadProcess slug ch (f :: rest) page = uploadProcess slug ch rest page := by
        simp [uploadProcess, hf]
      rw [he] at h
      exact ih page row h

/-- Facts about each allowed extension: it is nonempty and contains no
backslash (so the path normalization leaves it unchanged). -/
theorem allowed_ext_facts (e : String) (he : e ∈ ALLOWED_IMAGE_EXTENSIONS) :
    e ≠ "" ∧ e.toList.map (fun c => if c = '\\' then '/' else c) = e.toList := by
  fin_cases he <;> exact ⟨by decide, by decide⟩

/-- The stored path for a page ends with the page's extension. -/
theorem uploadImagePath_suffix (slug : String) (ch page : Nat) (e : String)
    (he : e ∈ ALLOWED_IMAGE_EXTENSIONS) :
    List.IsSuffix e.toList (uploadImagePath slug ch page e).toList := by
  obtain ⟨hne, hmap⟩ := allowed_ext_facts e he
  unfold uploadImagePath
  rw [if_neg hne]
  refine ⟨'/' :: (("static/uploads/".toList ++ (slug.toList ++ "_ch".toList
    ++ (toString ch).toList ++ "_".toList ++ (toString page).toList)).map
      (fun c => if c = '\\' then '/' else c)), ?_⟩
  show _ ++ e.toList = _
  simp only [List.cons_append, List.map_append, hmap, List.append_assoc]
  rfl

/-- C10: an uploaded image with no extension is always skipped (the empty
extension is not allowed), so every stored row's image path ends in the
image's own lower-cased extension, which lies in the allowed set — the
`.jpg` fallback is never used. -/
theorem upload_stored_paths_have_allowed_extension (slug : String) (ch : Nat)
    (files : List String) (rows : List PageRow)
    (hok : upload_chapter_post slug ch files = Except.ok rows) :
    ∀ row ∈ rows, ∃ e, e ∈ ALLOWED_IMAGE_EXTENSIONS ∧ e ≠ "" ∧
      e = uploadExt row.origName ∧ List.IsSuffix e.toList row.imagePath.toList := by
  intro row hrow
  have hrows : rows =
      uploadProcess slug ch (sortImages (files.filter (fun f => !(f == "")))) 1 := by
    unfold upload_chapter_post at hok
    split at hok
    · simp at hok
    · split at hok
      · simp at hok
      · injection hok with h
        exact h.symm
  rw [hrows] at hrow
  obtain ⟨hmem, hpath⟩ := uploadProcess_ext slug ch _ 1 row hrow
  obtain ⟨hne, _⟩ := allowed_ext_facts _ hmem
  refine ⟨uploadExt row.origName, hmem, hne, rfl, ?_⟩
  rw [hpath]
  exact uploadImagePath_suffix slug ch row.pageNumber _ hmem

/-- Witness for `upload_stored_paths_have_allowed_extension`: an upload
with one valid image and one extension-less file stores one page whose
path ends in `.png`. -/
theorem upload_stored_paths_have_allowed_extension_witness :
    ∃ e, e ∈ ALLOWED_IMAGE_EXTENSIONS ∧ e ≠ "" ∧
      e = uploadExt "a.png" ∧
      List.IsSuffix e.toList "/static/uploads/s_ch1_1.png".toList :=
  upload_stored_paths_have_allowed_extension "s" 1 ["a.png", "noext"]
    [⟨"a.png", 1, "/static/uploads/s_ch1_1.png"⟩] (by rfl)
    ⟨"a.png", 1, "/static/uploads/s_ch1_1.png"⟩ (by simp)

end Aps
